import Mathlib

/-!
# Verification of the multi-cloud provisioning and reconciliation core

Shallow embedding of the asynchronous provisioning pipeline
(`backend/app/tasks/terraform_tasks.py`, `backend/app/services/terraform_runner.py`,
`backend/app/api/endpoints/resources.py`), the credential vault
(`backend/app/core/security.py`, `backend/app/core/encryption.py`) and the
inventory reconciliation engine (`backend/app/tasks/sync_tasks.py`,
`backend/app/services/{aws,azure,gcp}_sync.py`), together with proofs of the
specification's testable properties.
-/

namespace MultiCloud

/-! ## Credential vault (`app/core/security.py`, `app/core/encryption.py`)

`encrypt_data`/`decrypt_data` wrap the external `cryptography.fernet.Fernet`
authenticated symmetric cipher, keyed by a key derived from the operator's
`SECRET_KEY` via SHA-256; `encrypt_text`/`decrypt_text` wrap the same cipher
keyed directly by `ENCRYPTION_KEY`.  The cipher and the hash are external
library code, not part of this repository. -/

/-- A Fernet token: an authentication tag over (key, ciphertext body) together
with the ciphertext body (a byte sequence, modelled as a list of naturals). -/
structure FernetToken where
  tag : Nat
  body : List Nat
  deriving DecidableEq

/-- Injective encoding of a byte list into a natural number (stands for the
byte-level serialization the real MAC is computed over). -/
def encodeBytes : List Nat → Nat
  | [] => 0
  | b :: t => Nat.pair b (encodeBytes t) + 1

/-- Modelled from the spec: the Fernet keystream (AES-CTR-like masking) of the
external `cryptography` library is not under `src/`; it is modelled as a
per-position pad derived from key and position, applied by XOR. -/
def keystream (key i : Nat) : Nat :=
  Nat.pair key i

/-- Mask (= unmask) a byte sequence with the keystream, starting at position `i`. -/
def mask (key : Nat) : Nat → List Nat → List Nat
  | _, [] => []
  | i, b :: t => (b ^^^ keystream key i) :: mask key (i + 1) t

/-- Modelled from the spec: `Fernet(key).encrypt` of the external
`cryptography` library is not under `src/`; modelled as an idealized
authenticated symmetric cipher — keystream masking for confidentiality and a
collision-free tag binding the key and the ciphertext body. -/
def fernetEncrypt (key : Nat) (plaintext : List Nat) : FernetToken :=
  let body := mask key 0 plaintext
  { tag := Nat.pair key (encodeBytes body), body := body }

/-- Modelled from the spec: `Fernet(key).decrypt` of the external
`cryptography` library is not under `src/`; modelled as verification of the
authentication tag followed by unmasking.  `none` stands for the library's
`InvalidToken`/decryption error. -/
def fernetDecrypt (key : Nat) (t : FernetToken) : Option (List Nat) :=
  if t.tag = Nat.pair key (encodeBytes t.body) then some (mask key 0 t.body) else none

/-- Modelled from the spec: `security._get_fernet_key` derives the Fernet key
from `SECRET_KEY` by SHA-256 (external `hashlib`); the hash is modelled as an
idealized (injective) derivation. -/
def get_fernet_key (secret : Nat) : Nat :=
  Nat.pair secret secret

/-- Byte view of a string (Python's `str.encode`, at codepoint granularity). -/
def strBytes (s : String) : List Nat :=
  s.toList.map Char.toNat

/-- Inverse of `strBytes` (Python's `bytes.decode`). -/
def bytesStr (bs : List Nat) : String :=
  (bs.map Char.ofNat).asString

/-- Embeds `security.encrypt_data`: encrypt a string under the key derived from the
operator `SECRET_KEY`. -/
def encrypt_data (secret : Nat) (data : String) : FernetToken :=
  fernetEncrypt (get_fernet_key secret) (strBytes data)

/-- Embeds `security.decrypt_data`: decrypt a token under the key derived from the
operator `SECRET_KEY`; `none` is the raised decryption error. -/
def decrypt_data (secret : Nat) (data : FernetToken) : Option String :=
  (fernetDecrypt (get_fernet_key secret) data).map bytesStr

/-- Embeds `encryption.encrypt_text`: encrypt a string directly under `ENCRYPTION_KEY`. -/
def encrypt_text (key : Nat) (plaintext : String) : FernetToken :=
  fernetEncrypt key (strBytes plaintext)

/-- Embeds `encryption.decrypt_text`: decrypt a token directly under `ENCRYPTION_KEY`. -/
def decrypt_text (key : Nat) (ciphertext : FernetToken) : Option String :=
  (fernetDecrypt key ciphertext).map bytesStr

/-! ## External IaC tool invocation (`app/services/terraform_runner.py`)

`TerraformRunner.run_command` runs the subprocess with `check=True`: on exit
code 0 it returns the captured stdout; on a nonzero exit the raised
`CalledProcessError` is caught and `"Error: " + stderr` is returned. -/

/-- Outcome of one subprocess invocation: exit code, captured stdout and
captured stderr. -/
structure ProcResult where
  exitCode : Nat
  stdout : String
  stderr : String
  deriving DecidableEq

/-- Embeds `TerraformRunner.run_command`: the string handed back to the orchestrator
for one tool step. -/
def runCommand (r : ProcResult) : String :=
  if r.exitCode = 0 then r.stdout else "Error: " ++ r.stderr

/-- The error marker scanned for in each step's captured output
(`"Error" in out` in `provision_resource_task`). -/
def errMarker : String := "Error"

/-- Python's `in` on strings: substring (infix) test on the captured output. -/
def hasMarker (s : String) : Bool :=
  decide (errMarker.toList <:+: s.toList)

/-! ## Provisioning orchestrator (`app/tasks/terraform_tasks.py`)

`provision_resource_task` is embedded as a function of a `JobEnv` describing
the world the task observes (resource existence, filesystem, credential rows,
decryption outcome, subprocess results); it returns the committed status
writes, the accumulated log, which tool steps ran, whether the variable file
was written, and whether the boundary handler re-raised. -/

/-- The `Resource.status` values (`app/models/resource.py`). -/
inductive Status
  | pending
  | provisioning
  | active
  | failed
  deriving DecidableEq

/-- The three tool steps the orchestrator can invoke. -/
inductive Step
  | init
  | plan
  | apply
  deriving DecidableEq

/-- A `CloudCredential` row as the orchestrator sees it
(`app/models/credential.py`). -/
structure Credential where
  id : Nat
  userId : Nat
  provider : String
  deriving DecidableEq

/-- Embeds `order_by(CloudCredential.id.desc()).first()` on an already-filtered row
list: the row with the highest id. -/
def latestCred : List Credential → Option Credential
  | [] => none
  | c :: rest =>
    match latestCred rest with
    | none => some c
    | some b => if b.id ≤ c.id then some c else some b

/-- The credential query of `provision_resource_task`: filter rows by
(user, provider), order by id descending, take the first. -/
def selectCred (creds : List Credential) (u : Nat) (p : String) : Option Credential :=
  latestCred (creds.filter fun c => c.userId == u && c.provider == p)

/-- The filtered credential rows for (user, provider). -/
def matchingCreds (creds : List Credential) (u : Nat) (p : String) : List Credential :=
  creds.filter fun c => c.userId == u && c.provider == p

/-- The `possible_paths` list searched for the IaC module template, in order. -/
def modulePaths (cwd moduleName : String) : List String :=
  [ cwd ++ "/../terraform/modules/" ++ moduleName
  , cwd ++ "/terraform/modules/" ++ moduleName
  , "/app/terraform/modules/" ++ moduleName ]

/-- The log line `[Error] Module not found. Searched in: {possible_paths}\n`
(Python list repr of the three searched paths). -/
def moduleNotFoundLog (cwd moduleName : String) : String :=
  "[Error] Module not found. Searched in: [\x27"
    ++ (cwd ++ "/../terraform/modules/" ++ moduleName) ++ "\x27, \x27"
    ++ (cwd ++ "/terraform/modules/" ++ moduleName) ++ "\x27, \x27"
    ++ ("/app/terraform/modules/" ++ moduleName) ++ "\x27]\n"

/-- The world observed by one run of `provision_resource_task`. -/
structure JobEnv where
  /-- the resource row with the requested id exists -/
  resourceExists : Bool
  /-- Python `resource.project.user_id`. -/
  userId : Nat
  /-- the `provider` task argument -/
  provider : String
  /-- the `module_name` task argument -/
  moduleName : String
  /-- Python `os.getcwd()`. -/
  cwd : String
  /-- the `SECRET_KEY` environment value echoed into the log -/
  secretKey : String
  /-- Python `os.path.exists` on the searched module paths. -/
  pathExists : String → Bool
  /-- the `cloud_credentials` rows visible to the task -/
  creds : List Credential
  /-- decryption plus field mapping of the selected credential succeeds -/
  credOk : Bool
  /-- Python `{type(e).__name__}: {str(e)}` when decryption or mapping fails. -/
  credErrMsg : String
  /-- an exception raised by workspace creation / module copy / file writes,
  reaching the job-boundary handler (`none` = no such exception) -/
  workspaceExc : Option String
  /-- subprocess outcome of `terraform init` -/
  initRes : ProcResult
  /-- subprocess outcome of `terraform plan` -/
  planRes : ProcResult
  /-- subprocess outcome of `terraform apply` -/
  applyRes : ProcResult

/-- What one run of `provision_resource_task` did: the committed status
writes in order, the final log, whether `terraform.tfvars.json` was written,
which tool steps were invoked, and whether the boundary handler re-raised. -/
structure JobResult where
  statusWrites : List Status
  log : String
  tfvarsWritten : Bool
  steps : List Step
  reraised : Bool
  deriving DecidableEq

/-- The initial debug log line built from `SECRET_KEY`. -/
def skLine (env : JobEnv) : String :=
  "[Debug] Using SECRET_KEY starting with: " ++ env.secretKey.take 4 ++ "...\n"

/-- One run of `provision_resource_task` (`app/tasks/terraform_tasks.py`). -/
def provisionJob (env : JobEnv) : JobResult :=
  if env.resourceExists = false then
    { statusWrites := [], log := "", tfvarsWritten := false, steps := [], reraised := false }
  else
    let logs0 := skLine env
    match env.workspaceExc with
    | some e =>
      { statusWrites := [.provisioning, .failed], log := e, tfvarsWritten := false,
        steps := [], reraised := true }
    | none =>
      match (modulePaths env.cwd env.moduleName).find? env.pathExists with
      | none =>
        { statusWrites := [.provisioning, .failed],
          log := logs0 ++ moduleNotFoundLog env.cwd env.moduleName,
          tfvarsWritten := false, steps := [], reraised := false }
      | some _ =>
        match selectCred env.creds env.userId env.provider with
        | none =>
          { statusWrites := [.provisioning, .failed],
            log := logs0 ++ "\n[Error] No credentials found for " ++ env.provider
              ++ ". Cannot proceed.\n",
            tfvarsWritten := true, steps := [], reraised := false }
        | some _ =>
          if env.credOk = false then
            { statusWrites := [.provisioning, .failed],
              log := logs0 ++ "\n[Error] Failed to decrypt credentials: "
                ++ env.credErrMsg ++ "\n",
              tfvarsWritten := true, steps := [], reraised := false }
          else
            let initOut := runCommand env.initRes
            let logs1 := logs0 ++ "--- INIT ---\n" ++ initOut ++ "\n"
            if hasMarker initOut then
              { statusWrites := [.provisioning, .failed], log := logs1,
                tfvarsWritten := true, steps := [.init], reraised := false }
            else
              let planOut := runCommand env.planRes
              let logs2 := logs1 ++ "\n--- PLAN ---\n" ++ planOut ++ "\n"
              if hasMarker planOut then
                { statusWrites := [.provisioning, .failed], log := logs2,
                  tfvarsWritten := true, steps := [.init, .plan], reraised := false }
              else
                let applyOut := runCommand env.applyRes
                let logs3 := logs2 ++ "\n--- APPLY ---\n" ++ applyOut ++ "\n"
                if hasMarker applyOut then
                  { statusWrites := [.provisioning, .failed], log := logs3,
                    tfvarsWritten := true, steps := [.init, .plan, .apply], reraised := false }
                else
                  { statusWrites := [.provisioning, .active], log := logs3,
                    tfvarsWritten := true, steps := [.init, .plan, .apply], reraised := false }

/-- The status sequence observable on the resource row: `create_resource`
(`app/api/endpoints/resources.py`) writes `pending` at creation, then the job
appends its committed writes. -/
def observedStatuses (env : JobEnv) : List Status :=
  Status.pending :: (provisionJob env).statusWrites

/-- The status the resource is left in once the job has returned. -/
def finalStatus (env : JobEnv) : Status :=
  (provisionJob env).statusWrites.getLastD .pending

/-! ## Health monitor (`check_health` in `app/services/{aws,gcp,azure}_sync.py`)

Each adapter runs one cheap provider call, measures the elapsed time in
milliseconds (float; modelled as a rational), and classifies. -/

/-- The `ProviderHealth.status` values. -/
inductive HealthStatus
  | healthy
  | degraded
  | error
  | unknown
  deriving DecidableEq

/-- Outcome of the connectivity probe: the exception raised (if any) and the
measured elapsed time in milliseconds. -/
structure ProbeOutcome where
  exc : Option String
  elapsedMs : ℚ
  deriving DecidableEq

/-- The dict returned by `check_health` (`int()` truncation of the nonnegative
elapsed time modelled as the floor). -/
structure HealthReport where
  status : HealthStatus
  responseTimeMs : ℤ
  errorMessage : Option String
  deriving DecidableEq

/-- Embeds `AWSResourceSync.check_health`. -/
def check_health_aws (o : ProbeOutcome) : HealthReport :=
  match o.exc with
  | none =>
    { status := if o.elapsedMs < 1000 then .healthy else .degraded,
      responseTimeMs := ⌊o.elapsedMs⌋, errorMessage := none }
  | some e =>
    { status := .error, responseTimeMs := ⌊o.elapsedMs⌋, errorMessage := some e }

/-- Embeds `GCPResourceSync.check_health`. -/
def check_health_gcp (o : ProbeOutcome) : HealthReport :=
  match o.exc with
  | none =>
    { status := if o.elapsedMs < 1000 then .healthy else .degraded,
      responseTimeMs := ⌊o.elapsedMs⌋, errorMessage := none }
  | some e =>
    { status := .error, responseTimeMs := ⌊o.elapsedMs⌋, errorMessage := some e }

/-- Embeds `AzureResourceSync.check_health`. -/
def check_health_azure (o : ProbeOutcome) : HealthReport :=
  match o.exc with
  | none =>
    { status := if o.elapsedMs < 1000 then .healthy else .degraded,
      responseTimeMs := ⌊o.elapsedMs⌋, errorMessage := none }
  | some e =>
    { status := .error, responseTimeMs := ⌊o.elapsedMs⌋, errorMessage := some e }

/-! ## Provider adapters: resource listings
(`app/services/aws_sync.py`, `azure_sync.py`, `gcp_sync.py`)

Each listing method wraps the whole provider iteration in
`try: ... except Exception: return []`.  The provider response (or the
exception raised while producing/iterating it) is the method's input,
modelled as an `Except`. -/

/-- The normalized descriptor shape produced by every listing method. -/
structure Descriptor where
  resourceId : String
  resourceName : String
  resourceType : String
  status : String
  region : String
  deriving DecidableEq

/-- An AWS tag (`{'Key': k, 'Value': v}`). -/
structure AwsTag where
  key : String
  value : String
  deriving DecidableEq

/-- Embeds `AWSResourceSync._get_tag_value`. -/
def getTagValue (tags : List AwsTag) (k : String) : Option String :=
  (tags.find? fun t => t.key == k).map (·.value)

/-- An EC2 instance as returned inside a reservation by `describe_instances`. -/
structure AwsInstance where
  instanceId : String
  state : String
  availabilityZone : String
  instanceType : String
  tags : List AwsTag
  deriving DecidableEq

/-- Embeds `AWSResourceSync.sync_ec2_instances`: flatten reservations, map each
instance to a descriptor (region = availability zone minus its zone suffix);
any exception from the provider call yields the empty list. -/
def sync_ec2_instances (resp : Except String (List (List AwsInstance))) : List Descriptor :=
  match resp with
  | .error _ => []
  | .ok reservations =>
    reservations.flatten.map fun i =>
      { resourceId := i.instanceId
      , resourceName := (getTagValue i.tags "Name").getD i.instanceId
      , resourceType := "vm"
      , status := i.state
      , region := i.availabilityZone.dropRight 1 }

/-- An S3 bucket from `list_buckets`, with the outcome of the per-bucket
`get_bucket_location` call (`none` location = null `LocationConstraint`). -/
structure AwsBucket where
  name : String
  locationResult : Except String (Option String)

/-- Embeds `AWSResourceSync.sync_s3_buckets`: a bucket whose location lookup raises
is skipped (inner `continue`); a whole-listing exception yields `[]`. -/
def sync_s3_buckets (resp : Except String (List AwsBucket)) : List Descriptor :=
  match resp with
  | .error _ => []
  | .ok buckets =>
    buckets.filterMap fun b =>
      match b.locationResult with
      | .error _ => none
      | .ok loc =>
        some { resourceId := b.name, resourceName := b.name, resourceType := "storage",
               status := "active", region := loc.getD "us-east-1" }

/-- A VPC from `describe_vpcs`. -/
structure AwsVpc where
  vpcId : String
  state : String
  tags : List AwsTag
  deriving DecidableEq

/-- Embeds `AWSResourceSync.sync_vpcs` (region is the adapter's configured region). -/
def sync_vpcs (region : String) (resp : Except String (List AwsVpc)) : List Descriptor :=
  match resp with
  | .error _ => []
  | .ok vpcs =>
    vpcs.map fun v =>
      { resourceId := v.vpcId
      , resourceName := (getTagValue v.tags "Name").getD v.vpcId
      , resourceType := "vpc"
      , status := v.state
      , region := region }

/-- An Azure VM from `virtual_machines.list_all()`, with the outcome of the
per-VM `instance_view` call (the list of status codes). -/
structure AzureVm where
  id : String
  name : String
  location : String
  instanceView : Except String (List String)

/-- Power-state extraction: the first status code starting with
`PowerState/`, keeping its last `/`-separated component; an instance-view
exception or no such code gives `unknown`. -/
def azurePowerState (iv : Except String (List String)) : String :=
  match iv with
  | .error _ => "unknown"
  | .ok codes =>
    match codes.find? (fun c => c.startsWith "PowerState/") with
    | none => "unknown"
    | some c => (c.splitOn "/").getLastD "unknown"

/-- Embeds `AzureResourceSync.sync_vms`. -/
def sync_vms (resp : Except String (List AzureVm)) : List Descriptor :=
  match resp with
  | .error _ => []
  | .ok vms =>
    vms.map fun vm =>
      { resourceId := vm.id, resourceName := vm.name, resourceType := "vm",
        status := azurePowerState vm.instanceView, region := vm.location }

/-- An Azure storage account from `storage_accounts.list()`. -/
structure AzureStorageAccount where
  id : String
  name : String
  location : String
  statusOfPrimary : Option String
  deriving DecidableEq

/-- Embeds `AzureResourceSync.sync_storage_accounts`. -/
def sync_storage_accounts (resp : Except String (List AzureStorageAccount)) : List Descriptor :=
  match resp with
  | .error _ => []
  | .ok accounts =>
    accounts.map fun a =>
      { resourceId := a.id, resourceName := a.name, resourceType := "storage",
        status := a.statusOfPrimary.getD "unknown", region := a.location }

/-- An Azure resource group from `resource_groups.list()`. -/
structure AzureResourceGroup where
  id : String
  name : String
  location : String
  provisioningState : Option String
  deriving DecidableEq

/-- Embeds `AzureResourceSync.sync_resource_groups`. -/
def sync_resource_groups (resp : Except String (List AzureResourceGroup)) : List Descriptor :=
  match resp with
  | .error _ => []
  | .ok groups =>
    groups.map fun rg =>
      { resourceId := rg.id, resourceName := rg.name, resourceType := "resource_group",
        status := rg.provisioningState.getD "unknown", region := rg.location }

/-- A GCP Compute instance from one zone of `instances.aggregatedList`. -/
structure GcpInstance where
  id : String
  name : String
  status : String
  zoneName : String
  deriving DecidableEq

/-- Region derivation: the zone name minus its trailing `-x` suffix, or
`global` for the pseudo-zone `global`. -/
def gcpRegionOfZone (zoneName : String) : String :=
  if zoneName = "global" then "global"
  else
    match (zoneName.splitOn "-").dropLast with
    | [] => zoneName
    | parts => String.intercalate "-" parts

/-- Embeds `GCPResourceSync.sync_compute_instances`: flatten the per-zone scoped
lists; any exception yields `[]`. -/
def sync_compute_instances (resp : Except String (List (List GcpInstance))) : List Descriptor :=
  match resp with
  | .error _ => []
  | .ok zones =>
    zones.flatten.map fun i =>
      { resourceId := i.id, resourceName := i.name, resourceType := "vm",
        status := i.status.toLower, region := gcpRegionOfZone i.zoneName }

/-- A GCP Cloud Storage bucket from `buckets.list`. -/
structure GcpBucket where
  id : String
  name : String
  location : Option String
  deriving DecidableEq

/-- Embeds `GCPResourceSync.sync_storage_buckets`. -/
def sync_storage_buckets (resp : Except String (List GcpBucket)) : List Descriptor :=
  match resp with
  | .error _ => []
  | .ok buckets =>
    buckets.map fun b =>
      { resourceId := b.id, resourceName := b.name, resourceType := "storage",
        status := "active", region := b.location.getD "unknown" }

/-- A GCP VPC network from `networks.list`. -/
structure GcpNetwork where
  id : String
  name : String
  deriving DecidableEq

/-- Embeds `GCPResourceSync.sync_networks` (networks are global in GCP). -/
def sync_networks (resp : Except String (List GcpNetwork)) : List Descriptor :=
  match resp with
  | .error _ => []
  | .ok networks =>
    networks.map fun n =>
      { resourceId := n.id, resourceName := n.name, resourceType := "network",
        status := "active", region := "global" }

/-! ## Inventory upsert (`_upsert_resource_inventory` in `app/tasks/sync_tasks.py`) -/

/-- A `ResourceInventory` row (`app/models/resource_inventory.py`), restricted
to the key and the mutable fields the upsert touches. -/
structure InvRow where
  userId : Nat
  provider : String
  resourceId : String
  resourceName : String
  resourceType : String
  status : String
  region : String
  lastSyncedAt : Nat
  deriving DecidableEq

/-- The upsert's match predicate: same (user, provider, resource_id). -/
def matchesKey (u : Nat) (p : String) (rid : String) (r : InvRow) : Bool :=
  r.userId == u && r.provider == p && r.resourceId == rid

/-- The update branch: overwrite the matched row's mutable fields from the
descriptor and advance `last_synced_at` to the current time. -/
def applyDescriptor (d : Descriptor) (t : Nat) (r : InvRow) : InvRow :=
  { r with resourceId := d.resourceId, resourceName := d.resourceName,
           resourceType := d.resourceType, status := d.status, region := d.region,
           lastSyncedAt := t }

/-- Update the first row matched by `.first()`; other rows are untouched. -/
def updateFirst (u : Nat) (p : String) (d : Descriptor) (t : Nat) : List InvRow → List InvRow
  | [] => []
  | r :: rest =>
    if matchesKey u p d.resourceId r then applyDescriptor d t r :: rest
    else r :: updateFirst u p d t rest

/-- The row inserted when no match exists (`last_synced_at` filled by the
column default at insert time). -/
def newRow (u : Nat) (p : String) (d : Descriptor) (t : Nat) : InvRow :=
  { userId := u, provider := p, resourceId := d.resourceId,
    resourceName := d.resourceName, resourceType := d.resourceType,
    status := d.status, region := d.region, lastSyncedAt := t }

/-- Embeds `_upsert_resource_inventory`: query for an existing (user, provider,
resource_id) row; update it in place if found, else insert a new row. -/
def upsertOne (u : Nat) (p : String) (t : Nat) (db : List InvRow) (d : Descriptor) :
    List InvRow :=
  if (db.find? (matchesKey u p d.resourceId)).isSome then updateFirst u p d t db
  else db ++ [newRow u p d t]

/-- One reconciliation pass: upsert every descriptor of one provider listing,
in order, at one cycle's timestamp. -/
def runSync (u : Nat) (p : String) (t : Nat) (db : List InvRow) (ds : List Descriptor) :
    List InvRow :=
  ds.foldl (upsertOne u p t) db

/-- Number of inventory rows carrying a given (user, provider, resource_id). -/
def countKey (u : Nat) (p : String) (rid : String) (db : List InvRow) : Nat :=
  (db.filter (matchesKey u p rid)).length

/-! ## Per-credential AWS reconciliation task (`sync_aws_resources` in
`app/tasks/sync_tasks.py`): health probe first, stop on `error`; otherwise
upsert the three listings and commit at the end of the cycle. -/

/-- Outcome of one per-credential cycle: whether the session committed, the
inventory after the cycle, and the recorded health report. -/
structure CycleOutcome where
  committed : Bool
  db : List InvRow
  health : HealthReport
  deriving DecidableEq

/-- Embeds `sync_aws_resources`, from the health probe onwards: on `error` the cycle
commits only the health row; otherwise the EC2, S3 and VPC listings are
upserted and the cycle commits.  Listing methods never raise (they return
`[]` on provider failure), so the body reaches `db.commit()`. -/
def sync_aws_resources (db0 : List InvRow) (u : Nat) (t : Nat) (probe : ProbeOutcome)
    (region : String)
    (ec2Resp : Except String (List (List AwsInstance)))
    (s3Resp : Except String (List AwsBucket))
    (vpcResp : Except String (List AwsVpc)) : CycleOutcome :=
  let health := check_health_aws probe
  if health.status = .error then
    { committed := true, db := db0, health := health }
  else
    let db1 := runSync u "aws" t db0 (sync_ec2_instances ec2Resp)
    let db2 := runSync u "aws" t db1 (sync_s3_buckets s3Resp)
    let db3 := runSync u "aws" t db2 (sync_vpcs region vpcResp)
    { committed := true, db := db3, health := health }

/-! ## Concrete inputs used by witnesses and counterexamples -/

/-- A concrete happy-path job environment used by the witnesses. -/
def baseEnv : JobEnv where
  resourceExists := true
  userId := 7
  provider := "aws"
  moduleName := "aws_vm"
  cwd := "/srv/backend"
  secretKey := "super-secret"
  pathExists := fun _ => true
  creds := [⟨1, 7, "aws"⟩, ⟨2, 7, "aws"⟩]
  credOk := true
  credErrMsg := ""
  workspaceExc := none
  initRes := ⟨0, "Initialized", ""⟩
  planRes := ⟨0, "Plan: 1 to add", ""⟩
  applyRes := ⟨0, "Apply complete", ""⟩

/-- A concrete environment in which workspace creation raises an exception
that only the job-boundary handler sees. -/
def c2Env : JobEnv :=
  { baseEnv with workspaceExc := some "boom" }

/-- The subprocess result refuting "captured output is the combined
stdout+stderr": exit 0 with nonempty stdout and stderr. -/
def c5Proc : ProcResult :=
  { exitCode := 0, stdout := "Apply complete.", stderr := "warning: deprecated" }

/-- The environment with a failing apply step used by the C5 witness. -/
def c5Env : JobEnv :=
  { baseEnv with applyRes := ⟨1, "", "apply exploded"⟩ }

/-- The environment with no stored credentials used by the C6 witness. -/
def c6EnvNoCreds : JobEnv :=
  { baseEnv with creds := [] }

/-- The environment with no module present at any searched location, used by
the C7 witness. -/
def c7Env : JobEnv :=
  { baseEnv with pathExists := fun _ => false }

/-- The descriptor list used by the C8 witness. -/
def c8Ds : List Descriptor :=
  [ { resourceId := "i-1", resourceName := "web", resourceType := "vm",
      status := "running", region := "us-east-1" }
  , { resourceId := "i-2", resourceName := "db", resourceType := "vm",
      status := "stopped", region := "us-east-1" } ]

/-- The probe measured at exactly 1000 ms, used by the C9 witness. -/
def c9Probe : ProbeOutcome :=
  { exc := none, elapsedMs := 1000 }

/-! ## General helper lemmas -/

lemma mask_mask (key : Nat) : ∀ (i : Nat) (bs : List Nat), mask key i (mask key i bs) = bs
  | _, [] => rfl
  | i, b :: t => by
    simp [mask, Nat.xor_assoc, mask_mask key (i + 1) t]

lemma bytesStr_strBytes (s : String) : bytesStr (strBytes s) = s := by
  cases s with
  | mk data =>
    simp only [bytesStr, strBytes, List.map_map]
    have : data.map (Char.ofNat ∘ Char.toNat) = data := by
      have h1 : data.map (Char.ofNat ∘ Char.toNat) = data.map id :=
        List.map_congr_left fun c _ => Char.ofNat_toNat c
      simp [h1]
    simp [this, List.asString, String.toList]

lemma fernet_roundtrip (key : Nat) (x : List Nat) :
    fernetDecrypt key (fernetEncrypt key x) = some x := by
  simp [fernetDecrypt, fernetEncrypt, mask_mask]

lemma encodeBytes_inj : ∀ {a b : List Nat}, encodeBytes a = encodeBytes b → a = b
  | [], [], _ => rfl
  | [], _ :: _, h => by simp [encodeBytes] at h
  | _ :: _, [], h => by simp [encodeBytes] at h
  | a :: s, b :: t, h => by
    simp only [encodeBytes, Nat.add_right_cancel_iff] at h
    obtain ⟨h1, h2⟩ := Nat.pair_eq_pair.mp h
    rw [h1, encodeBytes_inj h2]


lemma string_toList_append (a b : String) : (a ++ b).toList = a.toList ++ b.toList := by
  cases a
  cases b
  rfl

lemma str_infix_of_append (a b c : String) : b.toList <:+: (a ++ b ++ c).toList :=
  ⟨a.toList, c.toList, by simp [string_toList_append]⟩

lemma get_fernet_key_inj {s s' : Nat} (h : get_fernet_key s = get_fernet_key s') : s = s' :=
  (Nat.pair_eq_pair.mp h).1

/-! ## C3 / C4: credential vault -/

/-- C3: for every string x, `decrypt_data (encrypt_data x) = x` under any
fixed operator secret, and likewise `decrypt_text (encrypt_text x) = x` under
any fixed `ENCRYPTION_KEY`. -/
theorem c3_vault_roundtrip :
    (∀ (secret : Nat) (x : String), decrypt_data secret (encrypt_data secret x) = some x)
    ∧ (∀ (key : Nat) (x : String), decrypt_text key (encrypt_text key x) = some x) := by
  constructor <;> intro k x <;>
    simp [decrypt_data, encrypt_data, decrypt_text, encrypt_text, fernet_roundtrip,
      bytesStr_strBytes]

/-- C4: `decrypt_data` succeeds only on tokens genuinely produced by
encryption under the same derived key — a corrupt token (one that is not a
valid authenticated token) is rejected with a decryption error, and a token
produced under a different operator secret is rejected as well; no plaintext
is ever returned for such inputs. -/
theorem c4_decrypt_rejects_corrupt :
    (∀ (secret : Nat) (t : FernetToken) (p : String),
        decrypt_data secret t = some p →
        ∃ x, t = fernetEncrypt (get_fernet_key secret) x ∧ p = bytesStr x)
    ∧ (∀ (s s' : Nat) (x : String), s ≠ s' →
        decrypt_data s' (encrypt_data s x) = none) := by
  constructor
  · intro secret t p h
    simp only [decrypt_data, fernetDecrypt, Option.map_eq_some'] at h
    obtain ⟨bs, hbs, hp⟩ := h
    by_cases htag : t.tag = Nat.pair (get_fernet_key secret) (encodeBytes t.body)
    · rw [if_pos htag] at hbs
      refine ⟨mask (get_fernet_key secret) 0 t.body, ?_, ?_⟩
      · cases t with
        | mk tag body =>
          simp only [fernetEncrypt, mask_mask]
          simp_all
      · rw [← hp]
        congr 1
        exact (Option.some.inj hbs).symm
    · rw [if_neg htag] at hbs
      exact absurd hbs (by simp)
  · intro s s' x hne
    simp only [decrypt_data, encrypt_data, fernetDecrypt, fernetEncrypt]
    rw [if_neg]
    · simp
    · intro h
      exact hne (get_fernet_key_inj (Nat.pair_eq_pair.mp h).1)

/-- Witness for C4 at a concrete secret, token and plaintext. -/
theorem c4_decrypt_rejects_corrupt_witness :
    decrypt_data 0 (encrypt_data 0 "k") = some "k"
    ∧ (∃ x, encrypt_data 0 "k" = fernetEncrypt (get_fernet_key 0) x ∧ "k" = bytesStr x)
    ∧ (0 : Nat) ≠ 1
    ∧ decrypt_data 1 (encrypt_data 0 "k") = none :=
  ⟨by decide, c4_decrypt_rejects_corrupt.1 0 (encrypt_data 0 "k") "k" (by decide),
   by decide, c4_decrypt_rejects_corrupt.2 0 1 "k" (by decide)⟩

/-! ## Orchestrator lemmas -/

lemma statusWrites_cases (env : JobEnv) :
    ((provisionJob env).statusWrites = [] ∧ env.resourceExists = false)
    ∨ (provisionJob env).statusWrites = [Status.provisioning, Status.failed]
    ∨ (provisionJob env).statusWrites = [Status.provisioning, Status.active] := by
  unfold provisionJob
  repeat' split
  any_goals (simp_all; done)
  all_goals
    by_cases h1 : hasMarker (runCommand env.initRes) = true <;>
    by_cases h2 : hasMarker (runCommand env.planRes) = true <;>
    by_cases h3 : hasMarker (runCommand env.applyRes) = true <;>
    simp [h1, h2, h3]

/-! ## C1: status state machine -/

/-- C1: every observable status sequence of a resource is a prefix of
`pending → provisioning → {active, failed}`, and whenever the job finds the
resource it commits `provisioning` as its very first write, before any
workspace, credential or tool work; the only subsequent writes are `active`
or `failed`. -/
theorem c1_status_sequence (env : JobEnv) :
    (observedStatuses env <+: [Status.pending, Status.provisioning, Status.active]
      ∨ observedStatuses env <+: [Status.pending, Status.provisioning, Status.failed])
    ∧ (env.resourceExists = true →
        (provisionJob env).statusWrites.head? = some Status.provisioning) := by
  constructor
  · unfold observedStatuses
    rcases statusWrites_cases env with ⟨h, _⟩ | h | h <;> rw [h] <;> decide
  · intro hres
    rcases statusWrites_cases env with ⟨_, h⟩ | h | h
    · rw [hres] at h
      exact absurd h (by simp)
    · rw [h]
      rfl
    · rw [h]
      rfl

/-- Witness for C1 at a concrete environment. -/
theorem c1_status_sequence_witness :
    baseEnv.resourceExists = true
    ∧ (observedStatuses baseEnv <+: [Status.pending, Status.provisioning, Status.active]
        ∨ observedStatuses baseEnv <+: [Status.pending, Status.provisioning, Status.failed])
    ∧ (provisionJob baseEnv).statusWrites.head? = some Status.provisioning :=
  ⟨rfl, (c1_status_sequence baseEnv).1, (c1_status_sequence baseEnv).2 rfl⟩

/-! ## C2: job-boundary exception handling -/

/-- C2 counterexample: on an unhandled exception the boundary handler sets
`failed` and commits, but then executes `raise e` — the exception *is*
re-raised out of the task, contrary to the claim. -/
theorem c2_counterexample :
    ¬ ((provisionJob c2Env).reraised = false) := by
  decide

/-- C2 amended: any exception not handled by a specific step is caught at the
job boundary, which commits `failed` with the exception text as the log, and
then re-raises the exception out of the task (the failure is recorded on the
resource before the re-raise). -/
theorem c2_amended_boundary_handler (env : JobEnv) (msg : String)
    (hres : env.resourceExists = true) (hexc : env.workspaceExc = some msg) :
    (provisionJob env).statusWrites = [Status.provisioning, Status.failed]
    ∧ (provisionJob env).log = msg
    ∧ (provisionJob env).reraised = true := by
  unfold provisionJob
  simp [hres, hexc]

/-- Witness for the amended C2 at a concrete environment. -/
theorem c2_amended_boundary_handler_witness :
    c2Env.resourceExists = true
    ∧ c2Env.workspaceExc = some "boom"
    ∧ ((provisionJob c2Env).statusWrites = [Status.provisioning, Status.failed]
        ∧ (provisionJob c2Env).log = "boom"
        ∧ (provisionJob c2Env).reraised = true) :=
  ⟨rfl, rfl, c2_amended_boundary_handler c2Env "boom" rfl rfl⟩

/-! ## C5: tool-step sequencing and output capture -/

lemma hasMarker_of_error_out (s : String) : hasMarker ("Error: " ++ s) = true := by
  unfold hasMarker errMarker
  have h1 : ("Error").toList <+: ("Error: ").toList := by decide
  have h2 : ("Error: ").toList <+: ("Error: " ++ s).toList := by
    rw [string_toList_append]
    exact List.prefix_append _ _
  exact decide_eq_true (List.IsPrefix.isInfix (h1.trans h2))

/-- C5 counterexample: on a zero exit, `run_command` returns the stdout
alone — the captured output is not the step's combined stdout+stderr. -/
theorem c5_counterexample :
    ¬ (runCommand c5Proc = c5Proc.stdout ++ c5Proc.stderr) := by
  decide

/-- C5 amended: steps run in the fixed order init, plan, apply; each step's
captured output is its stdout when it exits zero and `"Error: " ++ stderr`
when it exits nonzero (not the combined stdout+stderr); the first step whose
captured output contains the error marker aborts the sequence with `failed`
and the logs accumulated so far; a nonzero exit yields output containing the
marker; and completing apply without the marker sets `active`. -/
theorem c5_amended_tool_steps (env : JobEnv)
    (hres : env.resourceExists = true)
    (hws : env.workspaceExc = none)
    (hmod : ((modulePaths env.cwd env.moduleName).find? env.pathExists).isSome = true)
    (hcred : (selectCred env.creds env.userId env.provider).isSome = true)
    (hok : env.credOk = true) :
    (∀ r : ProcResult, runCommand r = if r.exitCode = 0 then r.stdout else "Error: " ++ r.stderr)
    ∧ (∀ r : ProcResult, r.exitCode ≠ 0 → hasMarker (runCommand r) = true)
    ∧ (hasMarker (runCommand env.initRes) = true →
        (provisionJob env).steps = [Step.init]
        ∧ finalStatus env = Status.failed
        ∧ (provisionJob env).log
            = skLine env ++ "--- INIT ---\n" ++ runCommand env.initRes ++ "\n")
    ∧ (hasMarker (runCommand env.initRes) = false →
        hasMarker (runCommand env.planRes) = true →
        (provisionJob env).steps = [Step.init, Step.plan]
        ∧ finalStatus env = Status.failed
        ∧ (provisionJob env).log
            = skLine env ++ "--- INIT ---\n" ++ runCommand env.initRes ++ "\n"
              ++ "\n--- PLAN ---\n" ++ runCommand env.planRes ++ "\n")
    ∧ (hasMarker (runCommand env.initRes) = false →
        hasMarker (runCommand env.planRes) = false →
        (provisionJob env).steps = [Step.init, Step.plan, Step.apply]
        ∧ (hasMarker (runCommand env.applyRes) = true → finalStatus env = Status.failed)
        ∧ (hasMarker (runCommand env.applyRes) = false → finalStatus env = Status.active)) := by
  obtain ⟨mp, hmp⟩ := Option.isSome_iff_exists.mp hmod
  obtain ⟨cr, hcr⟩ := Option.isSome_iff_exists.mp hcred
  refine ⟨fun r => rfl, fun r hr => ?_, ?_, ?_, ?_⟩
  · unfold runCommand
    rw [if_neg hr]
    exact hasMarker_of_error_out r.stderr
  · intro h1
    unfold finalStatus provisionJob
    simp [hres, hws, hmp, hcr, hok, h1]
  · intro h1 h2
    unfold finalStatus provisionJob
    simp [hres, hws, hmp, hcr, hok, h1, h2]
  · intro h1 h2
    refine ⟨?_, fun h3 => ?_, fun h3 => ?_⟩
    · unfold provisionJob
      by_cases h3 : hasMarker (runCommand env.applyRes) = true <;>
        simp_all [hres, hws, hmp, hcr, hok]
    · unfold finalStatus provisionJob
      simp_all [hres, hws, hmp, hcr, hok]
    · unfold finalStatus provisionJob
      simp_all [hres, hws, hmp, hcr, hok]

/-- Witness for the amended C5: a job whose init and plan succeed and whose
apply exits nonzero runs all three steps and ends `failed`. -/
theorem c5_amended_tool_steps_witness :
    c5Env.resourceExists = true
    ∧ c5Env.workspaceExc = none
    ∧ ((modulePaths c5Env.cwd c5Env.moduleName).find? c5Env.pathExists).isSome = true
    ∧ (selectCred c5Env.creds c5Env.userId c5Env.provider).isSome = true
    ∧ c5Env.credOk = true
    ∧ ((provisionJob c5Env).steps = [Step.init, Step.plan, Step.apply]
        ∧ finalStatus c5Env = Status.failed) := by
  have h := c5_amended_tool_steps c5Env rfl rfl (by decide) (by decide) rfl
  have h5 := h.2.2.2.2 (by decide) (by decide)
  exact ⟨rfl, rfl, by decide, by decide, rfl, h5.1, h5.2.1 (by decide)⟩

/-! ## C6: credential resolution -/

lemma latestCred_eq_none {l : List Credential} : latestCred l = none ↔ l = [] := by
  cases l with
  | nil => simp [latestCred]
  | cons c rest =>
    simp only [latestCred]
    rcases latestCred rest with _ | b
    · simp
    · simp only []
      split_ifs <;> simp

lemma latestCred_spec : ∀ {l : List Credential} {c : Credential},
    latestCred l = some c → c ∈ l ∧ ∀ d ∈ l, d.id ≤ c.id := by
  intro l
  induction l with
  | nil => intro c h; simp [latestCred] at h
  | cons a rest ih =>
    intro c h
    simp only [latestCred] at h
    cases hrest : latestCred rest with
    | none =>
      simp only [hrest] at h
      have ha : a = c := Option.some.inj h
      have hre : rest = [] := latestCred_eq_none.mp hrest
      subst ha
      subst hre
      exact ⟨List.mem_singleton.mpr rfl, by simp⟩
    | some b =>
      simp only [hrest] at h
      obtain ⟨hbmem, hbmax⟩ := ih hrest
      by_cases hle : b.id ≤ a.id
      · rw [if_pos hle] at h
        have ha : a = c := Option.some.inj h
        subst ha
        refine ⟨List.mem_cons_self _ _, fun d hd => ?_⟩
        rcases List.mem_cons.mp hd with rfl | hd
        · exact le_refl _
        · exact (hbmax d hd).trans hle
      · rw [if_neg hle] at h
        have hb : b = c := Option.some.inj h
        subst hb
        refine ⟨List.mem_cons_of_mem _ hbmem, fun d hd => ?_⟩
        rcases List.mem_cons.mp hd with rfl | hd
        · omega
        · exact hbmax d hd

lemma job_failed_of_no_cred (env : JobEnv) (hres : env.resourceExists = true)
    (hsel : selectCred env.creds env.userId env.provider = none) :
    (provisionJob env).statusWrites.getLastD Status.pending = Status.failed := by
  unfold provisionJob
  cases henv : env.workspaceExc with
  | some e => simp [hres, henv]
  | none =>
    cases hfind : (modulePaths env.cwd env.moduleName).find? env.pathExists with
    | none => simp [hres, henv, hfind]
    | some mp => simp [hres, henv, hfind, hsel]

/-- C6: the provisioning job resolves exactly the credential row with the
highest id among the user's rows for the provider (the most recently created
one), and with zero stored credentials for the provider the job leaves the
resource `failed`, never `provisioning`. -/
theorem c6_credential_resolution (env : JobEnv) (hres : env.resourceExists = true) :
    (matchingCreds env.creds env.userId env.provider ≠ [] →
      (matchingCreds env.creds env.userId env.provider).Pairwise (fun a b => a.id ≠ b.id) →
      ∃ c, selectCred env.creds env.userId env.provider = some c
        ∧ c ∈ matchingCreds env.creds env.userId env.provider
        ∧ ∀ d ∈ matchingCreds env.creds env.userId env.provider, d ≠ c → d.id < c.id)
    ∧ (matchingCreds env.creds env.userId env.provider = [] →
        finalStatus env = Status.failed ∧ finalStatus env ≠ Status.provisioning) := by
  constructor
  · intro hne hpw
    have hsel : selectCred env.creds env.userId env.provider ≠ none := by
      intro h
      exact hne (latestCred_eq_none.mp h)
    obtain ⟨c, hc⟩ := Option.ne_none_iff_exists'.mp hsel
    obtain ⟨hmem, hmax⟩ := latestCred_spec hc
    refine ⟨c, hc, hmem, fun d hd hne' => ?_⟩
    have hle : d.id ≤ c.id := hmax d hd
    have hid : d.id ≠ c.id := hpw.forall (fun _ _ h => Ne.symm h) hd hmem hne'
    omega
  · intro hempty
    have hsel : selectCred env.creds env.userId env.provider = none := by
      unfold selectCred
      unfold matchingCreds at hempty
      rw [hempty]
      rfl
    have h := job_failed_of_no_cred env hres hsel
    unfold finalStatus
    rw [h]
    exact ⟨rfl, by simp⟩

/-- Witness for C6: with two stored aws credentials the row with the higher
id is selected; with none the job ends `failed`. -/
theorem c6_credential_resolution_witness :
    baseEnv.resourceExists = true
    ∧ matchingCreds baseEnv.creds baseEnv.userId baseEnv.provider ≠ []
    ∧ (matchingCreds baseEnv.creds baseEnv.userId baseEnv.provider).Pairwise
        (fun a b => a.id ≠ b.id)
    ∧ (∃ c, selectCred baseEnv.creds baseEnv.userId baseEnv.provider = some c
        ∧ c ∈ matchingCreds baseEnv.creds baseEnv.userId baseEnv.provider
        ∧ ∀ d ∈ matchingCreds baseEnv.creds baseEnv.userId baseEnv.provider,
            d ≠ c → d.id < c.id)
    ∧ matchingCreds c6EnvNoCreds.creds c6EnvNoCreds.userId c6EnvNoCreds.provider = []
    ∧ finalStatus c6EnvNoCreds = Status.failed :=
  ⟨rfl, by decide, by decide,
   (c6_credential_resolution baseEnv rfl).1 (by decide) (by decide),
   rfl, ((c6_credential_resolution c6EnvNoCreds rfl).2 rfl).1⟩

/-! ## C7: unknown module name -/

/-- C7: when no configured module location exists, the job fails without
writing a variable file or invoking any tool step, and its log names every
searched location. -/
theorem c7_module_not_found (env : JobEnv)
    (hres : env.resourceExists = true) (hws : env.workspaceExc = none)
    (hmod : ∀ p ∈ modulePaths env.cwd env.moduleName, env.pathExists p = false) :
    finalStatus env = Status.failed
    ∧ (provisionJob env).tfvarsWritten = false
    ∧ (provisionJob env).steps = []
    ∧ ∀ p ∈ modulePaths env.cwd env.moduleName,
        p.toList <:+: (provisionJob env).log.toList := by
  have hfind : (modulePaths env.cwd env.moduleName).find? env.pathExists = none :=
    List.find?_eq_none.mpr fun x hx => by rw [hmod x hx]; simp
  have hjob : provisionJob env =
      { statusWrites := [Status.provisioning, Status.failed],
        log := skLine env ++ moduleNotFoundLog env.cwd env.moduleName,
        tfvarsWritten := false, steps := [], reraised := false } := by
    unfold provisionJob
    simp [hres, hws, hfind]
  refine ⟨by unfold finalStatus; rw [hjob]; rfl, by rw [hjob], by rw [hjob], ?_⟩
  intro p hp
  rw [hjob]
  simp only [modulePaths, List.mem_cons, List.not_mem_nil, or_false] at hp
  rcases hp with rfl | rfl | rfl
  · refine ⟨(skLine env).toList ++ ("[Error] Module not found. Searched in: [\x27").toList,
      ("\x27, \x27" ++ (env.cwd ++ "/terraform/modules/" ++ env.moduleName) ++ "\x27, \x27"
        ++ ("/app/terraform/modules/" ++ env.moduleName) ++ "\x27]\n").toList, ?_⟩
    simp [moduleNotFoundLog, string_toList_append, List.append_assoc]
  · refine ⟨(skLine env).toList ++ ("[Error] Module not found. Searched in: [\x27").toList
      ++ (env.cwd ++ "/../terraform/modules/" ++ env.moduleName).toList ++ ("\x27, \x27").toList,
      ("\x27, \x27" ++ ("/app/terraform/modules/" ++ env.moduleName) ++ "\x27]\n").toList, ?_⟩
    simp [moduleNotFoundLog, string_toList_append, List.append_assoc]
  · refine ⟨(skLine env).toList ++ ("[Error] Module not found. Searched in: [\x27").toList
      ++ (env.cwd ++ "/../terraform/modules/" ++ env.moduleName).toList ++ ("\x27, \x27").toList
      ++ (env.cwd ++ "/terraform/modules/" ++ env.moduleName).toList ++ ("\x27, \x27").toList,
      ("\x27]\n").toList, ?_⟩
    simp [moduleNotFoundLog, string_toList_append, List.append_assoc]

/-- Witness for C7 at a concrete environment. -/
theorem c7_module_not_found_witness :
    c7Env.resourceExists = true
    ∧ c7Env.workspaceExc = none
    ∧ (∀ p ∈ modulePaths c7Env.cwd c7Env.moduleName, c7Env.pathExists p = false)
    ∧ (finalStatus c7Env = Status.failed
        ∧ (provisionJob c7Env).tfvarsWritten = false
        ∧ (provisionJob c7Env).steps = []
        ∧ ∀ p ∈ modulePaths c7Env.cwd c7Env.moduleName,
            p.toList <:+: (provisionJob c7Env).log.toList) :=
  ⟨rfl, rfl, fun _ _ => rfl, c7_module_not_found c7Env rfl rfl (fun _ _ => rfl)⟩

/-! ## C8: inventory upsert lemmas -/

lemma matchesKey_applyDescriptor (u : Nat) (p : String) (d : Descriptor) (t : Nat)
    (r : InvRow) (h : matchesKey u p d.resourceId r = true) (rid : String) :
    matchesKey u p rid (applyDescriptor d t r) = matchesKey u p rid r := by
  simp only [matchesKey, Bool.and_eq_true, beq_iff_eq] at h
  simp [matchesKey, applyDescriptor, ← h.2]

lemma countKey_updateFirst (u : Nat) (p : String) (d : Descriptor) (t : Nat) (rid : String) :
    ∀ db : List InvRow, countKey u p rid (updateFirst u p d t db) = countKey u p rid db
  | [] => rfl
  | r :: rest => by
    unfold updateFirst
    by_cases hm : matchesKey u p d.resourceId r = true
    · rw [if_pos hm]
      unfold countKey
      simp only [List.filter_cons, matchesKey_applyDescriptor u p d t r hm rid]
      by_cases hr : matchesKey u p rid r = true <;> simp [hr]
    · rw [if_neg hm]
      have hrec := countKey_updateFirst u p d t rid rest
      unfold countKey at hrec ⊢
      simp only [List.filter_cons]
      by_cases hr : matchesKey u p rid r = true <;> simp [hr, hrec]

lemma length_updateFirst (u : Nat) (p : String) (d : Descriptor) (t : Nat) :
    ∀ db : List InvRow, (updateFirst u p d t db).length = db.length
  | [] => rfl
  | r :: rest => by
    unfold updateFirst
    by_cases hm : matchesKey u p d.resourceId r = true <;>
      simp [hm, length_updateFirst u p d t rest]

lemma countKey_eq_zero_iff (u : Nat) (p : String) (rid : String) (db : List InvRow) :
    countKey u p rid db = 0 ↔ ∀ r ∈ db, matchesKey u p rid r = false := by
  unfold countKey
  rw [List.length_eq_zero, List.filter_eq_nil_iff]
  constructor
  · intro h r hr
    exact Bool.not_eq_true _ ▸ (by simpa using h r hr)
  · intro h r hr
    simp [h r hr]

lemma find?_isSome_iff_countKey (u : Nat) (p : String) (rid : String) (db : List InvRow) :
    (db.find? (matchesKey u p rid)).isSome = true ↔ countKey u p rid db ≠ 0 := by
  rw [List.find?_isSome]
  constructor
  · rintro ⟨r, hr, hm⟩ h0
    rw [countKey_eq_zero_iff] at h0
    rw [h0 r hr] at hm
    exact absurd hm (by simp)
  · intro h
    by_contra hnone
    push_neg at hnone
    apply h
    rw [countKey_eq_zero_iff]
    intro r hr
    by_contra hb
    exact hnone r hr (by simpa using hb)

lemma matchesKey_newRow (u : Nat) (p : String) (d : Descriptor) (t : Nat) (rid : String) :
    matchesKey u p rid (newRow u p d t) = (d.resourceId == rid) := by
  simp [matchesKey, newRow]

lemma countKey_upsertOne (u : Nat) (p : String) (t : Nat) (db : List InvRow)
    (d : Descriptor) (rid : String) :
    countKey u p rid (upsertOne u p t db d)
      = if countKey u p d.resourceId db = 0 ∧ rid = d.resourceId
        then countKey u p rid db + 1 else countKey u p rid db := by
  unfold upsertOne
  by_cases hf : (db.find? (matchesKey u p d.resourceId)).isSome = true
  · rw [if_pos hf, countKey_updateFirst]
    have h0 : countKey u p d.resourceId db ≠ 0 :=
      (find?_isSome_iff_countKey u p d.resourceId db).mp hf
    rw [if_neg]
    rintro ⟨h, _⟩
    exact h0 h
  · rw [if_neg hf]
    have h0 : countKey u p d.resourceId db = 0 := by
      by_contra h
      exact hf ((find?_isSome_iff_countKey u p d.resourceId db).mpr h)
    by_cases hr : rid = d.resourceId
    · rw [if_pos ⟨h0, hr⟩]
      unfold countKey
      rw [List.filter_append, List.length_append]
      simp [List.filter_cons, matchesKey_newRow, hr]
    · rw [if_neg fun hc => hr hc.2]
      unfold countKey
      rw [List.filter_append, List.length_append]
      have hb : (d.resourceId == rid) = false := by simp [Ne.symm hr]
      simp [List.filter_cons, matchesKey_newRow, hb]

lemma countKey_le_upsertOne (u : Nat) (p : String) (t : Nat) (db : List InvRow)
    (d : Descriptor) (rid : String) :
    countKey u p rid db ≤ countKey u p rid (upsertOne u p t db d) := by
  rw [countKey_upsertOne]
  split <;> omega

lemma countKey_upsertOne_le_one (u : Nat) (p : String) (t : Nat) (db : List InvRow)
    (d : Descriptor) (hinv : ∀ rid, countKey u p rid db ≤ 1) (rid : String) :
    countKey u p rid (upsertOne u p t db d) ≤ 1 := by
  rw [countKey_upsertOne]
  split
  · rename_i h
    rw [h.2, h.1]
  · exact hinv rid

lemma one_le_countKey_upsertOne (u : Nat) (p : String) (t : Nat) (db : List InvRow)
    (d : Descriptor) :
    1 ≤ countKey u p d.resourceId (upsertOne u p t db d) := by
  rw [countKey_upsertOne]
  split
  · omega
  · rename_i h
    rw [not_and_or] at h
    rcases h with h | h
    · omega
    · exact absurd rfl h

lemma length_upsertOne_of_found (u : Nat) (p : String) (t : Nat) (db : List InvRow)
    (d : Descriptor) (h : countKey u p d.resourceId db ≠ 0) :
    (upsertOne u p t db d).length = db.length := by
  unfold upsertOne
  rw [if_pos ((find?_isSome_iff_countKey u p d.resourceId db).mpr h), length_updateFirst]

lemma countKey_runSync_le_one (u : Nat) (p : String) (t : Nat) :
    ∀ (ds : List Descriptor) (db : List InvRow),
      (∀ rid, countKey u p rid db ≤ 1) →
      ∀ rid, countKey u p rid (runSync u p t db ds) ≤ 1
  | [], _, hinv => hinv
  | d :: rest, db, hinv =>
    countKey_runSync_le_one u p t rest (upsertOne u p t db d)
      (countKey_upsertOne_le_one u p t db d hinv)

lemma countKey_le_runSync (u : Nat) (p : String) (t : Nat) (rid : String) :
    ∀ (ds : List Descriptor) (db : List InvRow),
      countKey u p rid db ≤ countKey u p rid (runSync u p t db ds)
  | [], _ => le_refl _
  | d :: rest, db =>
    (countKey_le_upsertOne u p t db d rid).trans
      (countKey_le_runSync u p t rid rest (upsertOne u p t db d))

lemma one_le_countKey_runSync (u : Nat) (p : String) (t : Nat) (d : Descriptor) :
    ∀ (ds : List Descriptor) (db : List InvRow), d ∈ ds →
      1 ≤ countKey u p d.resourceId (runSync u p t db ds)
  | [], _, hd => absurd hd (List.not_mem_nil d)
  | d' :: rest, db, hd => by
    rcases List.mem_cons.mp hd with rfl | hd'
    · exact (one_le_countKey_upsertOne u p t db d).trans
        (countKey_le_runSync u p t d.resourceId rest (upsertOne u p t db d))
    · exact one_le_countKey_runSync u p t d rest (upsertOne u p t db d') hd'

lemma length_runSync_of_all_found (u : Nat) (p : String) (t : Nat) :
    ∀ (ds : List Descriptor) (db : List InvRow),
      (∀ d ∈ ds, countKey u p d.resourceId db ≠ 0) →
      (runSync u p t db ds).length = db.length
  | [], _, _ => rfl
  | d :: rest, db, h => by
    have hlen := length_upsertOne_of_found u p t db d (h d (List.mem_cons_self d rest))
    have hrest : ∀ d' ∈ rest, countKey u p d'.resourceId (upsertOne u p t db d) ≠ 0 := by
      intro d' hd'
      have h1 : countKey u p d'.resourceId db ≠ 0 := h d' (List.mem_cons_of_mem d hd')
      have h2 := countKey_le_upsertOne u p t db d d'.resourceId
      omega
    have hrec := length_runSync_of_all_found u p t rest (upsertOne u p t db d) hrest
    unfold runSync at hrec ⊢
    simp only [List.foldl_cons]
    rw [hrec, hlen]

lemma mem_updateFirst (u : Nat) (p : String) (d : Descriptor) (t : Nat) :
    ∀ {db : List InvRow} {r : InvRow}, r ∈ updateFirst u p d t db →
      r ∈ db ∨ ∃ r0 ∈ db, matchesKey u p d.resourceId r0 = true ∧ r = applyDescriptor d t r0 := by
  intro db
  induction db with
  | nil => intro r hr; exact absurd hr (List.not_mem_nil r)
  | cons r0 rest ih =>
    intro r hr
    unfold updateFirst at hr
    by_cases hm : matchesKey u p d.resourceId r0 = true
    · rw [if_pos hm] at hr
      rcases List.mem_cons.mp hr with rfl | hr'
      · exact Or.inr ⟨r0, List.mem_cons_self r0 rest, hm, rfl⟩
      · exact Or.inl (List.mem_cons_of_mem r0 hr')
    · rw [if_neg hm] at hr
      rcases List.mem_cons.mp hr with rfl | hr'
      · exact Or.inl (List.mem_cons_self r rest)
      · rcases ih hr' with h | ⟨r1, hr1, hm1, heq⟩
        · exact Or.inl (List.mem_cons_of_mem r0 h)
        · exact Or.inr ⟨r1, List.mem_cons_of_mem r0 hr1, hm1, heq⟩

lemma ts_pres_upsertOne (u : Nat) (p : String) (t : Nat) (db : List InvRow) (d : Descriptor)
    (K : String) (h : ∀ r ∈ db, matchesKey u p K r = true → r.lastSyncedAt = t) :
    ∀ r ∈ upsertOne u p t db d, matchesKey u p K r = true → r.lastSyncedAt = t := by
  intro r hr hm
  unfold upsertOne at hr
  by_cases hf : (db.find? (matchesKey u p d.resourceId)).isSome = true
  · rw [if_pos hf] at hr
    rcases mem_updateFirst u p d t hr with h' | ⟨r0, _, _, heq⟩
    · exact h r h' hm
    · rw [heq]
      rfl
  · rw [if_neg hf] at hr
    rcases List.mem_append.mp hr with h' | h'
    · exact h r h' hm
    · rw [List.mem_singleton.mp h']
      rfl

lemma ts_updateFirst (u : Nat) (p : String) (d : Descriptor) (t : Nat) :
    ∀ db : List InvRow, countKey u p d.resourceId db ≤ 1 →
      ∀ r ∈ updateFirst u p d t db, matchesKey u p d.resourceId r = true →
        r.lastSyncedAt = t := by
  intro db
  induction db with
  | nil => intro _ r hr; exact absurd hr (List.not_mem_nil r)
  | cons r0 rest ih =>
    intro hc r hr hm
    unfold updateFirst at hr
    by_cases hm0 : matchesKey u p d.resourceId r0 = true
    · rw [if_pos hm0] at hr
      rcases List.mem_cons.mp hr with rfl | hr'
      · rfl
      · exfalso
        have hzero : countKey u p d.resourceId rest = 0 := by
          unfold countKey at hc
          simp [List.filter_cons, hm0] at hc
          unfold countKey
          rw [List.length_eq_zero, List.filter_eq_nil_iff]
          intro a ha
          simp [hc a ha]
        rw [countKey_eq_zero_iff] at hzero
        rw [hzero r hr'] at hm
        exact absurd hm (by simp)
    · rw [if_neg hm0] at hr
      rcases List.mem_cons.mp hr with rfl | hr'
      · exact absurd hm hm0
      · have hcr : countKey u p d.resourceId rest ≤ 1 := by
          unfold countKey at hc ⊢
          simp only [List.filter_cons, hm0] at hc
          exact hc
        exact ih hcr r hr' hm

lemma ts_set_upsertOne (u : Nat) (p : String) (t : Nat) (db : List InvRow) (d : Descriptor)
    (hc : countKey u p d.resourceId db ≤ 1) :
    ∀ r ∈ upsertOne u p t db d, matchesKey u p d.resourceId r = true →
      r.lastSyncedAt = t := by
  intro r hr hm
  unfold upsertOne at hr
  by_cases hf : (db.find? (matchesKey u p d.resourceId)).isSome = true
  · rw [if_pos hf] at hr
    exact ts_updateFirst u p d t db hc r hr hm
  · rw [if_neg hf] at hr
    have h0 : countKey u p d.resourceId db = 0 := by
      by_contra h
      exact hf ((find?_isSome_iff_countKey u p d.resourceId db).mpr h)
    rcases List.mem_append.mp hr with h' | h'
    · rw [countKey_eq_zero_iff] at h0
      rw [h0 r h'] at hm
      exact absurd hm (by simp)
    · rw [List.mem_singleton.mp h']
      rfl

lemma ts_pres_runSync (u : Nat) (p : String) (t : Nat) (K : String) :
    ∀ (ds : List Descriptor) (db : List InvRow),
      (∀ r ∈ db, matchesKey u p K r = true → r.lastSyncedAt = t) →
      ∀ r ∈ runSync u p t db ds, matchesKey u p K r = true → r.lastSyncedAt = t
  | [], _, h => h
  | d :: rest, db, h =>
    ts_pres_runSync u p t K rest (upsertOne u p t db d)
      (ts_pres_upsertOne u p t db d K h)

lemma ts_runSync (u : Nat) (p : String) (t : Nat) (d : Descriptor) :
    ∀ (ds : List Descriptor) (db : List InvRow),
      (∀ rid, countKey u p rid db ≤ 1) → d ∈ ds →
      ∀ r ∈ runSync u p t db ds, matchesKey u p d.resourceId r = true →
        r.lastSyncedAt = t
  | [], _, _, hd => absurd hd (List.not_mem_nil d)
  | d' :: rest, db, hinv, hd => by
    rcases List.mem_cons.mp hd with rfl | hd'
    · exact ts_pres_runSync u p t d.resourceId rest (upsertOne u p t db d)
        (ts_set_upsertOne u p t db d (hinv d.resourceId))
    · exact ts_runSync u p t d rest (upsertOne u p t db d')
        (countKey_upsertOne_le_one u p t db d' hinv) hd'

/-- C8: reconciling the same provider listing twice is idempotent — after the
second pass there is exactly one inventory row per (user, provider,
resource_id) of the listing, the second pass inserts nothing (it updates in
place), the per-key uniqueness invariant is preserved, and every matched
row's `last_synced_at` is monotonically non-decreasing across the two
cycles. -/
theorem c8_reconcile_idempotent (u : Nat) (p : String) (db0 : List InvRow)
    (ds : List Descriptor) (t1 t2 : Nat)
    (hinv : ∀ rid, countKey u p rid db0 ≤ 1) (ht : t1 ≤ t2) :
    (∀ d ∈ ds, countKey u p d.resourceId (runSync u p t2 (runSync u p t1 db0 ds) ds) = 1)
    ∧ (runSync u p t2 (runSync u p t1 db0 ds) ds).length = (runSync u p t1 db0 ds).length
    ∧ (∀ rid, countKey u p rid (runSync u p t2 (runSync u p t1 db0 ds) ds) ≤ 1)
    ∧ (∀ d ∈ ds, ∀ r1 ∈ runSync u p t1 db0 ds,
        ∀ r2 ∈ runSync u p t2 (runSync u p t1 db0 ds) ds,
        matchesKey u p d.resourceId r1 = true → matchesKey u p d.resourceId r2 = true →
        r1.lastSyncedAt ≤ r2.lastSyncedAt) := by
  have hinv1 : ∀ rid, countKey u p rid (runSync u p t1 db0 ds) ≤ 1 :=
    countKey_runSync_le_one u p t1 ds db0 hinv
  have hinv2 : ∀ rid, countKey u p rid (runSync u p t2 (runSync u p t1 db0 ds) ds) ≤ 1 :=
    countKey_runSync_le_one u p t2 ds (runSync u p t1 db0 ds) hinv1
  refine ⟨fun d hd => ?_, ?_, hinv2, fun d hd r1 hr1 r2 hr2 hm1 hm2 => ?_⟩
  · exact le_antisymm (hinv2 d.resourceId)
      (one_le_countKey_runSync u p t2 d ds (runSync u p t1 db0 ds) hd)
  · refine length_runSync_of_all_found u p t2 ds (runSync u p t1 db0 ds) fun d hd => ?_
    have := one_le_countKey_runSync u p t1 d ds db0 hd
    omega
  · rw [ts_runSync u p t1 d ds db0 hinv hd r1 hr1 hm1,
      ts_runSync u p t2 d ds (runSync u p t1 db0 ds) hinv1 hd r2 hr2 hm2]
    exact ht

/-- Witness for C8: two upsert passes over a two-descriptor listing starting
from the empty inventory. -/
theorem c8_reconcile_idempotent_witness :
    (∀ rid, countKey 7 "aws" rid [] ≤ 1)
    ∧ (0 : Nat) ≤ 1
    ∧ (∀ d ∈ c8Ds, countKey 7 "aws" d.resourceId
        (runSync 7 "aws" 1 (runSync 7 "aws" 0 [] c8Ds) c8Ds) = 1)
    ∧ (runSync 7 "aws" 1 (runSync 7 "aws" 0 [] c8Ds) c8Ds).length
        = (runSync 7 "aws" 0 [] c8Ds).length := by
  have hinv : ∀ rid, countKey 7 "aws" rid [] ≤ 1 := fun rid => by simp [countKey]
  have h := c8_reconcile_idempotent 7 "aws" [] c8Ds 0 1 hinv (by omega)
  exact ⟨hinv, by omega, h.1, h.2.1⟩

/-! ## C9: health classification -/

/-- C9: for all three provider adapters, a probe that returns classifies as
`healthy` exactly when the measured time is strictly below 1000 ms and as
`degraded` exactly when it is at least 1000 ms (so exactly 1000 ms is
`degraded`), and a probe that raises classifies as `error`. -/
theorem c9_health_classification (o : ProbeOutcome) :
    (o.exc = none →
      (((check_health_aws o).status = HealthStatus.healthy ↔ o.elapsedMs < 1000)
        ∧ ((check_health_aws o).status = HealthStatus.degraded ↔ 1000 ≤ o.elapsedMs))
      ∧ (((check_health_gcp o).status = HealthStatus.healthy ↔ o.elapsedMs < 1000)
        ∧ ((check_health_gcp o).status = HealthStatus.degraded ↔ 1000 ≤ o.elapsedMs))
      ∧ (((check_health_azure o).status = HealthStatus.healthy ↔ o.elapsedMs < 1000)
        ∧ ((check_health_azure o).status = HealthStatus.degraded ↔ 1000 ≤ o.elapsedMs)))
    ∧ (∀ e, o.exc = some e →
        (check_health_aws o).status = HealthStatus.error
        ∧ (check_health_gcp o).status = HealthStatus.error
        ∧ (check_health_azure o).status = HealthStatus.error) := by
  constructor
  · intro hnone
    refine ⟨⟨?_, ?_⟩, ⟨?_, ?_⟩, ⟨?_, ?_⟩⟩ <;>
      · simp only [check_health_aws, check_health_gcp, check_health_azure]
        rw [hnone]
        by_cases h : o.elapsedMs < 1000 <;> simp [h, not_lt.mp, le_of_not_lt]
        try omega
  · intro e he
    simp only [check_health_aws, check_health_gcp, check_health_azure]
    rw [he]
    exact ⟨rfl, rfl, rfl⟩

/-- Witness for C9: a probe measured at exactly 1000 ms classifies as
`degraded` (not `healthy`) in all three adapters. -/
theorem c9_health_classification_witness :
    c9Probe.exc = none
    ∧ (check_health_aws c9Probe).status = HealthStatus.degraded
    ∧ (check_health_gcp c9Probe).status = HealthStatus.degraded
    ∧ (check_health_azure c9Probe).status = HealthStatus.degraded := by
  have h := (c9_health_classification c9Probe).1 rfl
  refine ⟨rfl, ?_, ?_, ?_⟩
  · exact h.1.2.mpr (by norm_num [c9Probe])
  · exact h.2.1.2.mpr (by norm_num [c9Probe])
  · exact h.2.2.2.mpr (by norm_num [c9Probe])

/-! ## C10: listing totality over provider failures -/

/-- C10: every resource-listing method of the three provider adapters maps a
raised provider exception to the empty list — the same result as an account
with zero resources of that type — and the per-credential AWS reconciliation
cycle with all listings failing commits exactly like a cycle over an empty
account. -/
theorem c10_listings_total_on_failure :
    (∀ e, sync_ec2_instances (Except.error e) = []
      ∧ sync_s3_buckets (Except.error e) = []
      ∧ (∀ region, sync_vpcs region (Except.error e) = [])
      ∧ sync_vms (Except.error e) = []
      ∧ sync_storage_accounts (Except.error e) = []
      ∧ sync_resource_groups (Except.error e) = []
      ∧ sync_compute_instances (Except.error e) = []
      ∧ sync_storage_buckets (Except.error e) = []
      ∧ sync_networks (Except.error e) = [])
    ∧ (sync_ec2_instances (Except.ok []) = []
      ∧ sync_s3_buckets (Except.ok []) = []
      ∧ (∀ region, sync_vpcs region (Except.ok []) = [])
      ∧ sync_vms (Except.ok []) = []
      ∧ sync_storage_accounts (Except.ok []) = []
      ∧ sync_resource_groups (Except.ok []) = []
      ∧ sync_compute_instances (Except.ok []) = []
      ∧ sync_storage_buckets (Except.ok []) = []
      ∧ sync_networks (Except.ok []) = [])
    ∧ (∀ (db0 : List InvRow) (u t : Nat) (probe : ProbeOutcome) (region : String)
        (e1 e2 e3 : String),
        sync_aws_resources db0 u t probe region
            (Except.error e1) (Except.error e2) (Except.error e3)
          = sync_aws_resources db0 u t probe region
              (Except.ok []) (Except.ok []) (Except.ok [])
        ∧ (sync_aws_resources db0 u t probe region
            (Except.error e1) (Except.error e2) (Except.error e3)).committed = true) := by
  refine ⟨fun e => ?_, ?_, fun db0 u t probe region e1 e2 e3 => ?_⟩
  · exact ⟨rfl, rfl, fun _ => rfl, rfl, rfl, rfl, rfl, rfl, rfl⟩
  · exact ⟨rfl, rfl, fun _ => rfl, rfl, rfl, rfl, rfl, rfl, rfl⟩
  · constructor
    · rfl
    · by_cases h : (check_health_aws probe).status = HealthStatus.error <;>
        simp [sync_aws_resources, h]

end MultiCloud
